import Mathlib

/-!
Shallow embedding of `load_balancer.cpp` (TCP load balancer with round-robin,
least-connections and IP-hash selection, health probing, and per-connection
forwarding with counter accounting).

Modelling conventions:
* C++ `vector<T>` fields become Lean `List T`; indexed reads use `getD`
  (callers in the source only index in bounds, captured by `WF` below).
* C++ `int` counters become `Int` (their increments are bounded by live
  connection counts, far from 32-bit overflow, so wrap-around is immaterial;
  the `INT_MAX` sentinel of `get_least_connection_backend` is kept literally).
* `size_t rr_index` is a `Nat` reduced modulo `2^64` on increment, matching
  unsigned wrap-around semantics.
* Network effects (connect success, bytes read, send success) are inputs to
  the model; the mutations `handle` performs are emitted as an explicit event
  trace and replayed onto the registry state by `applyEvents`.
-/

namespace LB

/-- `enum class LBAlgorithm`. -/
inductive LBAlgorithm
  | ROUND_ROBIN
  | LEAST_CONNECTIONS
  | IP_HASH
deriving DecidableEq, Repr

/-- State of `class BackendManager`: server list plus per-backend health,
request and active-connection counters. -/
structure BackendManager where
  backend_servers : List (String × Int)
  backend_health : List Bool
  request_count : List Int
  active_connections : List Int
deriving Repr, DecidableEq

/-- The `BackendManager` constructor: three fixed localhost backends, all
healthy, all counters zero. -/
def BackendManager.init : BackendManager :=
  let servers : List (String × Int) :=
    [("127.0.0.1", 9001), ("127.0.0.1", 9002), ("127.0.0.1", 9003)]
  { backend_servers := servers
    backend_health := List.replicate servers.length true
    request_count := List.replicate servers.length 0
    active_connections := List.replicate servers.length 0 }

/-- `BackendManager::get_healthy_indices`: indices `i` with
`backend_health[i]` true, in increasing order. -/
def get_healthy_indices (m : BackendManager) : List Nat :=
  (List.range m.backend_health.length).filter (fun i => m.backend_health.getD i false)

/-- `BackendManager::set_health`. -/
def set_health (m : BackendManager) (index : Nat) (healthy : Bool) : BackendManager :=
  { m with backend_health := m.backend_health.set index healthy }

/-- `BackendManager::increment_requests`. -/
def increment_requests (m : BackendManager) (index : Nat) : BackendManager :=
  { m with request_count :=
      m.request_count.set index (m.request_count.getD index 0 + 1) }

/-- `BackendManager::increment_active`. -/
def increment_active (m : BackendManager) (index : Nat) : BackendManager :=
  { m with active_connections :=
      m.active_connections.set index (m.active_connections.getD index 0 + 1) }

/-- `BackendManager::decrement_active`. -/
def decrement_active (m : BackendManager) (index : Nat) : BackendManager :=
  { m with active_connections :=
      m.active_connections.set index (m.active_connections.getD index 0 - 1) }

/-- `INT_MAX`, the sentinel initial value of `min_conn`. -/
def INT_MAX : Int := 2147483647

/-- One iteration of the loop body of `BackendManager::get_least_connection_backend`:
accumulator is `(min_conn, selected)`. -/
def lc_step (ac : Nat → Int) (acc : Int × Int) (idx : Nat) : Int × Int :=
  if ac idx < acc.1 then (ac idx, (idx : Int)) else acc

/-- `BackendManager::get_least_connection_backend`: first index among `healthy`
with strictly descending running minimum of `active_connections`; `-1` when
no candidate beats the `INT_MAX` sentinel (in particular when `healthy` is empty). -/
def get_least_connection_backend (m : BackendManager) (healthy : List Nat) : Int :=
  (healthy.foldl (lc_step (fun idx => m.active_connections.getD idx 0)) (INT_MAX, -1)).2

/-- State of `class LoadBalancer`: fixed algorithm plus the round-robin cursor
(`size_t rr_index`). -/
structure LoadBalancer where
  algorithm : LBAlgorithm
  rr_index : Nat
deriving Repr, DecidableEq

/-- `size_t` wraps modulo `2^64`. -/
def UINT64_MOD : Nat := 2 ^ 64

/-- `LoadBalancer::select_backend`. `hasher` stands for `std::hash<string>`,
an arbitrary but fixed function within one process run. Returns the chosen
index (`-1` for "none") and the updated balancer state. -/
def select_backend (hasher : String → Nat) (m : BackendManager) (lb : LoadBalancer)
    (client_ip : String) : Int × LoadBalancer :=
  let healthy := get_healthy_indices m
  if healthy.isEmpty then (-1, lb)
  else
    match lb.algorithm with
    | .ROUND_ROBIN =>
        ((healthy.getD (lb.rr_index % healthy.length) 0 : Int),
         { lb with rr_index := (lb.rr_index + 1) % UINT64_MOD })
    | .LEAST_CONNECTIONS => (get_least_connection_backend m healthy, lb)
    | .IP_HASH =>
        ((healthy.getD (hasher client_ip % healthy.length) 0 : Int), lb)

/-- Well-formedness established by the `BackendManager` constructor and
preserved by every operation: the four per-backend lists are parallel. -/
structure WF (m : BackendManager) : Prop where
  health_len : m.backend_health.length = m.backend_servers.length
  request_len : m.request_count.length = m.backend_servers.length
  active_len : m.active_connections.length = m.backend_servers.length

theorem WF.init : WF BackendManager.init := by
  constructor <;> rfl

/-! ## ClientHandler -/

/-- The synthetic response sent when selection returns no backend
(`handle`, first branch). -/
def msg_503_unavailable : String :=
  "HTTP/1.1 503 Service Unavailable\r\nContent-Length: 0\r\nConnection: close\r\n\r\n"

/-- The synthetic response sent when the backend connection fails
(`handle`, second branch). -/
def msg_503_backend_failed : String :=
  "HTTP/1.1 503 Backend Connection Failed\r\nContent-Length: 0\r\nConnection: close\r\n\r\n"

/-- Network outcomes, supplied by the environment, for one run of
`ClientHandler::handle`: whether `create_connection` succeeds, whether the
request-leg `forward_once(client_fd, backend_fd, ...)` succeeds (client bytes
read and fully written to the backend), and whether the response-leg
`forward_once(backend_fd, client_fd, ...)` succeeds. -/
structure NetEnv where
  connectOk : Bool
  reqLegOk : Bool
  respLegOk : Bool
deriving Repr, DecidableEq

/-- Observable actions of `ClientHandler::handle`, in program order. -/
inductive Event
  | sendClient (msg : String)
  | forwardToBackend
  | forwardToClient
  | incActive (i : Nat)
  | decActive (i : Nat)
  | incRequests (i : Nat)
  | closeBackend
  | closeClient
deriving Repr, DecidableEq

/-- The trace of `ClientHandler::handle` after selection returned `sel`,
with network outcomes `env`, transcribed branch by branch from the source. -/
def handle_events (sel : Int) (env : NetEnv) : List Event :=
  if sel = -1 then
    [.sendClient msg_503_unavailable, .closeClient]
  else
    let i := sel.toNat
    if env.connectOk = false then
      [.sendClient msg_503_backend_failed, .closeClient]
    else if env.reqLegOk = false then
      [.incActive i, .closeBackend, .closeClient, .decActive i]
    else if env.respLegOk = false then
      [.incActive i, .forwardToBackend, .incRequests i, .decActive i,
       .closeBackend, .closeClient]
    else
      [.incActive i, .forwardToBackend, .forwardToClient, .incRequests i,
       .decActive i, .closeBackend, .closeClient]

/-- `ClientHandler::handle`: run selection, then the forwarding state machine.
Returns the selected index, the event trace, and the balancer state after the
embedded `select_backend` call. -/
def handle (hasher : String → Nat) (m : BackendManager) (lb : LoadBalancer)
    (client_ip : String) (env : NetEnv) : Int × List Event × LoadBalancer :=
  ((select_backend hasher m lb client_ip).1,
   handle_events (select_backend hasher m lb client_ip).1 env,
   (select_backend hasher m lb client_ip).2)

/-- Replay one trace event onto the registry state. -/
def applyEvent (m : BackendManager) : Event → BackendManager
  | .incActive i => increment_active m i
  | .decActive i => decrement_active m i
  | .incRequests i => increment_requests m i
  | _ => m

/-- Replay a trace onto the registry state. -/
def applyEvents (m : BackendManager) (evs : List Event) : BackendManager :=
  evs.foldl applyEvent m

/-! ## HealthChecker -/

/-- `needle.isPrefixOf hay` over characters, spelled out. -/
def charsStartWith : List Char → List Char → Bool
  | [], _ => true
  | _ :: _, [] => false
  | a :: as, b :: bs => a == b && charsStartWith as bs

/-- `hay.find(needle) != npos`: some suffix of `hay` starts with `needle`. -/
def charsContain (needle : List Char) : List Char → Bool
  | [] => charsStartWith needle []
  | c :: rest => charsStartWith needle (c :: rest) || charsContain needle rest

/-- `std::string::find(needle) != npos` on whole strings. -/
def strContains (hay needle : String) : Bool :=
  charsContain needle.data hay.data

/-- Network outcomes for one health probe of one backend: whether `socket()`
succeeds, whether `connect` succeeds, whether `send_all` of the probe request
succeeds, and the bytes the single `read_some` returns (`none` = recv failed
or timed out). -/
structure ProbeOutcome where
  socketOk : Bool
  connectOk : Bool
  sendOk : Bool
  recvData : Option String
deriving Repr, DecidableEq

/-- The `alive` flag computed by the probe loop body of `HealthChecker::start`
for one backend. -/
def probe_alive (o : ProbeOutcome) : Bool :=
  o.socketOk && o.connectOk && o.sendOk &&
    (match o.recvData with
     | none => false
     | some resp =>
         strContains resp "HTTP/1.1 200" || strContains resp "HTTP/1.0 200")

/-- One probe cycle of `HealthChecker::start`: for each backend `i` in order,
`set_health i (probe_alive (outcome i))`. -/
def health_cycle (m : BackendManager) (outcome : Nat → ProbeOutcome) : BackendManager :=
  (List.range m.backend_servers.length).foldl
    (fun acc i => set_health acc i (probe_alive (outcome i))) m

/-! ## Helper lemmas -/

theorem getD_set_self_int {l : List Int} {i : Nat} (a : Int) (h : i < l.length) :
    (l.set i a).getD i 0 = a := by
  rw [List.getD_eq_getElem _ _ (by simpa using h)]
  simp [List.getElem_set_self]

theorem getD_set_ne_int {l : List Int} {i j : Nat} (a : Int) (h : i ≠ j) :
    (l.set i a).getD j 0 = l.getD j 0 := by
  simp [List.getD_eq_getD_get?, List.get?_eq_getElem?, List.getElem?_set_ne h]

theorem mem_get_healthy_indices {m : BackendManager} {j : Nat} :
    j ∈ get_healthy_indices m ↔
      j < m.backend_health.length ∧ m.backend_health.getD j false = true := by
  simp [get_healthy_indices, List.mem_filter, List.mem_range]

theorem get_healthy_indices_nodup (m : BackendManager) :
    (get_healthy_indices m).Nodup :=
  (List.nodup_range _).filter _

theorem getD_mem_of_lt {l : List Nat} {n : Nat} (h : n < l.length) :
    l.getD n 0 ∈ l := by
  rw [List.getD_eq_getElem _ _ h]
  exact List.getElem_mem h

/-- Characterization of the `get_least_connection_backend` fold: either no
candidate beats the running minimum `mc` and the accumulator survives, or the
result is the earliest candidate `j₀` beating `mc` that no later candidate
strictly beats. -/
theorem lc_foldl_char (ac : Nat → Int) (l : List Nat) :
    ∀ (mc sel : Int),
      (l.foldl (lc_step ac) (mc, sel) = (mc, sel) ∧ ∀ x ∈ l, mc ≤ ac x) ∨
      (∃ l₁ j₀ l₂, l = l₁ ++ j₀ :: l₂ ∧
        l.foldl (lc_step ac) (mc, sel) = (ac j₀, (j₀ : Int)) ∧
        ac j₀ < mc ∧ (∀ x ∈ l₁, ac j₀ < ac x) ∧ (∀ x ∈ l₂, ac j₀ ≤ ac x)) := by
  induction l with
  | nil => intro mc sel; left; simp
  | cons j t ih =>
    intro mc sel
    by_cases hj : ac j < mc
    · right
      have hstep : lc_step ac (mc, sel) j = (ac j, (j : Int)) := by
        simp [lc_step, hj]
      rw [List.foldl_cons, hstep]
      rcases ih (ac j) (j : Int) with ⟨heq, hall⟩ | ⟨l₁, j₀, l₂, ht, heq, hlt, h₁, h₂⟩
      · exact ⟨[], j, t, by simp, heq, hj, by simp, hall⟩
      · refine ⟨j :: l₁, j₀, l₂, by simp [ht], heq, lt_trans hlt hj, ?_, h₂⟩
        intro x hx
        rcases List.mem_cons.mp hx with rfl | hx
        · exact hlt
        · exact h₁ x hx
    · have hstep : lc_step ac (mc, sel) j = (mc, sel) := by
        simp [lc_step, hj]
      rw [List.foldl_cons, hstep]
      rcases ih mc sel with ⟨heq, hall⟩ | ⟨l₁, j₀, l₂, ht, heq, hlt, h₁, h₂⟩
      · left
        refine ⟨heq, ?_⟩
        intro x hx
        rcases List.mem_cons.mp hx with rfl | hx
        · exact not_lt.mp hj
        · exact hall x hx
      · right
        refine ⟨j :: l₁, j₀, l₂, by simp [ht], heq, hlt, ?_, h₂⟩
        intro x hx
        rcases List.mem_cons.mp hx with rfl | hx
        · exact lt_of_lt_of_le hlt (not_lt.mp hj)
        · exact h₁ x hx

/-- `get_least_connection_backend` returns `-1` or a member of the candidates. -/
theorem get_least_connection_backend_mem (m : BackendManager) (healthy : List Nat) :
    get_least_connection_backend m healthy = -1 ∨
      ∃ t : Nat, get_least_connection_backend m healthy = (t : Int) ∧ t ∈ healthy := by
  unfold get_least_connection_backend
  rcases lc_foldl_char (fun idx => m.active_connections.getD idx 0) healthy INT_MAX (-1) with
    ⟨heq, _⟩ | ⟨l₁, j₀, l₂, ht, heq, _, _, _⟩
  · left; rw [heq]
  · right
    exact ⟨j₀, by rw [heq], by rw [ht]; exact List.mem_append_right _ (List.mem_cons_self _ _)⟩

/-- `select_backend` returns `-1` or a member of the healthy snapshot. -/
theorem select_backend_fst_mem (hasher : String → Nat) (m : BackendManager)
    (lb : LoadBalancer) (ip : String) :
    (select_backend hasher m lb ip).1 = -1 ∨
      ∃ t : Nat, (select_backend hasher m lb ip).1 = (t : Int) ∧
        t ∈ get_healthy_indices m := by
  unfold select_backend
  by_cases hemp : (get_healthy_indices m).isEmpty
  · left; simp [hemp]
  · have hne : get_healthy_indices m ≠ [] := by
      simpa [List.isEmpty_iff] using hemp
    have hlen : 0 < (get_healthy_indices m).length := List.length_pos.mpr hne
    rw [if_neg (by simpa [List.isEmpty_iff] using hemp)]
    match halg : lb.algorithm with
    | .ROUND_ROBIN =>
        right
        refine ⟨(get_healthy_indices m).getD (lb.rr_index % (get_healthy_indices m).length) 0,
          rfl, ?_⟩
        exact getD_mem_of_lt (Nat.mod_lt _ hlen)
    | .LEAST_CONNECTIONS =>
        simpa using get_least_connection_backend_mem m (get_healthy_indices m)
    | .IP_HASH =>
        right
        refine ⟨(get_healthy_indices m).getD (hasher ip % (get_healthy_indices m).length) 0,
          rfl, ?_⟩
        exact getD_mem_of_lt (Nat.mod_lt _ hlen)

/-- Events that touch the active-connection counters. -/
def isActiveEvent : Event → Bool
  | .incActive _ => true
  | .decActive _ => true
  | _ => false

theorem getD_active_inc (m : BackendManager) (t i : Nat)
    (ht : t < m.active_connections.length) :
    (increment_active m t).active_connections.getD i 0 =
      if i = t then m.active_connections.getD i 0 + 1
      else m.active_connections.getD i 0 := by
  by_cases h : i = t
  · subst h
    rw [if_pos rfl]
    exact getD_set_self_int _ ht
  · rw [if_neg h]
    exact getD_set_ne_int _ fun e => h e.symm

theorem getD_active_dec (m : BackendManager) (t i : Nat)
    (ht : t < m.active_connections.length) :
    (decrement_active m t).active_connections.getD i 0 =
      if i = t then m.active_connections.getD i 0 - 1
      else m.active_connections.getD i 0 := by
  by_cases h : i = t
  · subst h
    rw [if_pos rfl]
    exact getD_set_self_int _ ht
  · rw [if_neg h]
    exact getD_set_ne_int _ fun e => h e.symm

theorem getD_request_inc (m : BackendManager) (t i : Nat)
    (ht : t < m.request_count.length) :
    (increment_requests m t).request_count.getD i 0 =
      if i = t then m.request_count.getD i 0 + 1
      else m.request_count.getD i 0 := by
  by_cases h : i = t
  · subst h
    rw [if_pos rfl]
    exact getD_set_self_int _ ht
  · rw [if_neg h]
    exact getD_set_ne_int _ fun e => h e.symm

theorem getD_active_inc_ge (m : BackendManager) (t i : Nat)
    (ht : t < m.active_connections.length) :
    m.active_connections.getD i 0 ≤
      (increment_active m t).active_connections.getD i 0 := by
  rw [getD_active_inc m t i ht]
  split <;> omega

theorem getD_request_inc_ge (m : BackendManager) (t i : Nat)
    (ht : t < m.request_count.length) :
    m.request_count.getD i 0 ≤
      (increment_requests m t).request_count.getD i 0 := by
  rw [getD_request_inc m t i ht]
  split <;> omega

theorem getD_active_dec_inc (m : BackendManager) (t i : Nat)
    (ht : t < m.active_connections.length) :
    (decrement_active (increment_active m t) t).active_connections.getD i 0 =
      m.active_connections.getD i 0 := by
  have ht' : t < (increment_active m t).active_connections.length := by
    simpa [increment_active] using ht
  rw [getD_active_dec _ t i ht', getD_active_inc m t i ht]
  by_cases h : i = t <;> simp [h]

theorem getD_active_full (m : BackendManager) (t i : Nat)
    (ht : t < m.active_connections.length) :
    (decrement_active (increment_requests (increment_active m t) t)
        t).active_connections.getD i 0 = m.active_connections.getD i 0 := by
  have hfr : (increment_requests (increment_active m t) t).active_connections =
      (increment_active m t).active_connections := rfl
  have ht' : t < (increment_requests (increment_active m t)
      t).active_connections.length := by
    rw [hfr]; simpa [increment_active] using ht
  rw [getD_active_dec _ t i ht', hfr, getD_active_inc m t i ht]
  by_cases h : i = t <;> simp [h]

theorem getD_request_full (m : BackendManager) (t i : Nat)
    (ht : t < m.request_count.length) :
    (decrement_active (increment_requests (increment_active m t) t)
        t).request_count.getD i 0 =
      m.request_count.getD i 0 + (if i = t then 1 else 0) := by
  have h1 : (decrement_active (increment_requests (increment_active m t) t)
      t).request_count = (increment_requests (increment_active m t) t).request_count := rfl
  have h2 : (increment_active m t).request_count = m.request_count := rfl
  have ht' : t < (increment_active m t).request_count.length := ht
  rw [h1, getD_request_inc _ t i ht', h2]
  by_cases h : i = t <;> simp [h]

/-- `select_backend` lifted to the whole system state (registry, balancer).
The C++ method only reads the registry (`get_healthy_indices`,
`get_least_connection_backend`, both under locks) and writes only its own
`rr_index`, so the registry component passes through unchanged. -/
def sys_select (hasher : String → Nat) (s : BackendManager × LoadBalancer)
    (ip : String) : Int × BackendManager × LoadBalancer :=
  ((select_backend hasher s.1 s.2 ip).1, s.1, (select_backend hasher s.1 s.2 ip).2)

/-- `N` successive calls to `select_backend` with a fixed registry: the list
of returned indices and the final balancer state. -/
def select_n (hasher : String → Nat) (m : BackendManager) (ip : String) :
    Nat → LoadBalancer → List Int × LoadBalancer
  | 0, lb => ([], lb)
  | n + 1, lb =>
      ((select_backend hasher m lb ip).1 ::
         (select_n hasher m ip n (select_backend hasher m lb ip).2).1,
       (select_n hasher m ip n (select_backend hasher m lb ip).2).2)

theorem nodup_getD_ne {l : List Nat} (h : l.Nodup) {a b : Nat}
    (ha : a < l.length) (hb : b < l.length) (hne : a ≠ b) :
    l.getD a 0 ≠ l.getD b 0 := by
  rw [List.getD_eq_getElem _ _ ha, List.getD_eq_getElem _ _ hb]
  intro hEq
  exact hne ((List.Nodup.getElem_inj_iff h).mp hEq)

/-- One RoundRobin-mode `select_backend` step against a non-empty snapshot. -/
theorem select_backend_rr_step (hasher : String → Nat) (m : BackendManager)
    (lb : LoadBalancer) (ip : String) (halg : lb.algorithm = LBAlgorithm.ROUND_ROBIN)
    (hne : get_healthy_indices m ≠ []) :
    select_backend hasher m lb ip =
      (((get_healthy_indices m).getD
          (lb.rr_index % (get_healthy_indices m).length) 0 : Int),
       ⟨LBAlgorithm.ROUND_ROBIN, (lb.rr_index + 1) % UINT64_MOD⟩) := by
  have hemp : (get_healthy_indices m).isEmpty = false := by
    simpa [List.isEmpty_iff] using hne
  obtain ⟨a, c⟩ := lb
  simp only at halg
  subst halg
  simp [select_backend, hemp]

/-- Unrolling `select_n` in RoundRobin mode: final cursor and each result. -/
theorem select_n_rr (hasher : String → Nat) (m : BackendManager) (ip : String)
    (hne : get_healthy_indices m ≠ []) :
    ∀ (N : Nat) (lb : LoadBalancer), lb.algorithm = LBAlgorithm.ROUND_ROBIN →
      lb.rr_index + N < UINT64_MOD →
      (select_n hasher m ip N lb).2 = ⟨lb.algorithm, lb.rr_index + N⟩ ∧
      ∀ i < N, (select_n hasher m ip N lb).1.getD i (-1) =
        ((get_healthy_indices m).getD
          ((lb.rr_index + i) % (get_healthy_indices m).length) 0 : Int) := by
  intro N
  induction N with
  | zero =>
      intro lb halg _
      refine ⟨?_, ?_⟩
      · obtain ⟨a, c⟩ := lb; simp [select_n]
      · intro i hi; omega
  | succ n ih =>
      intro lb halg hbound
      have hstep := select_backend_rr_step hasher m lb ip halg hne
      have hc1 : (lb.rr_index + 1) % UINT64_MOD = lb.rr_index + 1 :=
        Nat.mod_eq_of_lt (by omega)
      have hrec := ih ⟨LBAlgorithm.ROUND_ROBIN, lb.rr_index + 1⟩ rfl (by simp; omega)
      refine ⟨?_, ?_⟩
      · show (select_n hasher m ip (n + 1) lb).2 = _
        simp only [select_n, hstep, hc1]
        rw [hrec.1]
        simp [halg]
        omega
      · intro i hi
        match i with
        | 0 =>
            simp only [select_n, hstep, hc1]
            simp
        | k + 1 =>
            simp only [select_n, hstep, hc1]
            have harg : (LoadBalancer.mk LBAlgorithm.ROUND_ROBIN
                (lb.rr_index + 1)).rr_index + k = lb.rr_index + (k + 1) := by
              show lb.rr_index + 1 + k = lb.rr_index + (k + 1)
              omega
            have hres := hrec.2 k (by omega)
            rw [harg] at hres
            simp only [List.getD_cons_succ]
            exact hres

/-- When selection returned "none", `handle` touches no counters. -/
theorem handle_events_spec_none (m : BackendManager) (env : NetEnv) :
    applyEvents m (handle_events (-1) env) = m ∧
    (∀ n, applyEvents m ((handle_events (-1) env).take n) = m) ∧
    (handle_events (-1) env).filter isActiveEvent = [] := by
  refine ⟨rfl, ?_, rfl⟩
  intro n
  have hev : handle_events (-1) env =
      [.sendClient msg_503_unavailable, .closeClient] := rfl
  rw [hev]
  rcases n with _ | _ | n
  · rfl
  · rfl
  · simp only [List.take_succ_cons, List.take_nil]
    rfl

/-- Full counter accounting of one `handle` run whose selection returned a
backend index `t`: the active count returns to its pre-request value, never
drops below it mid-run, the active-counter events are exactly
`[incActive t, decActive t]` iff the backend connect succeeded (else none),
the request count gains exactly one at `t` iff the request leg succeeded,
and request counts never decrease mid-run. -/
theorem handle_events_spec_some (m : BackendManager) (t : Nat) (env : NetEnv)
    (hta : t < m.active_connections.length) (htr : t < m.request_count.length) :
    (∀ i, (applyEvents m (handle_events (t : Int) env)).active_connections.getD i 0 =
        m.active_connections.getD i 0) ∧
    (∀ n i, m.active_connections.getD i 0 ≤
        (applyEvents m ((handle_events (t : Int) env).take n)).active_connections.getD i 0) ∧
    ((handle_events (t : Int) env).filter isActiveEvent =
       if env.connectOk = true then [Event.incActive t, Event.decActive t] else []) ∧
    (∀ i, (applyEvents m (handle_events (t : Int) env)).request_count.getD i 0 =
        m.request_count.getD i 0 +
          (if i = t ∧ env.connectOk = true ∧ env.reqLegOk = true then 1 else 0)) ∧
    (∀ n i, m.request_count.getD i 0 ≤
        (applyEvents m ((handle_events (t : Int) env).take n)).request_count.getD i 0) := by
  have hne : ¬((t : Int) = -1) := by omega
  rcases env with ⟨co, rq, rs⟩
  cases co
  · -- connect failed: [sendClient msg_503_backend_failed, closeClient]
    have hev : handle_events (t : Int) ⟨false, rq, rs⟩ =
        [.sendClient msg_503_backend_failed, .closeClient] := by
      simp [handle_events, hne]
    refine ⟨?_, ?_, ?_, ?_, ?_⟩
    · intro i; rw [hev]; rfl
    · intro n i; rw [hev]
      rcases n with _ | _ | n
      · exact le_refl _
      · exact le_refl _
      · simp only [List.take_succ_cons, List.take_nil]
        exact le_refl _
    · rw [hev]; rfl
    · intro i; rw [hev]
      simp [applyEvents, applyEvent]
    · intro n i; rw [hev]
      rcases n with _ | _ | n
      · exact le_refl _
      · exact le_refl _
      · simp only [List.take_succ_cons, List.take_nil]
        exact le_refl _
  · cases rq
    · -- request leg failed: [incActive t, closeBackend, closeClient, decActive t]
      have hev : handle_events (t : Int) ⟨true, false, rs⟩ =
          [.incActive t, .closeBackend, .closeClient, .decActive t] := by
        simp [handle_events, hne]
      refine ⟨?_, ?_, ?_, ?_, ?_⟩
      · intro i; rw [hev]
        exact getD_active_dec_inc m t i hta
      · intro n i; rw [hev]
        rcases n with _ | _ | _ | _ | n
        · exact le_refl _
        · exact getD_active_inc_ge m t i hta
        · exact getD_active_inc_ge m t i hta
        · exact getD_active_inc_ge m t i hta
        · simp only [List.take_succ_cons, List.take_nil]
          exact le_of_eq (getD_active_dec_inc m t i hta).symm
      · rw [hev]; rfl
      · intro i; rw [hev]
        show m.request_count.getD i 0 = m.request_count.getD i 0 + _
        simp
      · intro n i; rw [hev]
        rcases n with _ | _ | _ | _ | n
        · exact le_refl _
        · exact le_refl _
        · exact le_refl _
        · exact le_refl _
        · simp only [List.take_succ_cons, List.take_nil]
          exact le_refl _
    · cases rs
      · -- response leg failed, request leg succeeded
        have hev : handle_events (t : Int) ⟨true, true, false⟩ =
            [.incActive t, .forwardToBackend, .incRequests t, .decActive t,
             .closeBackend, .closeClient] := by
          simp [handle_events, hne]
        refine ⟨?_, ?_, ?_, ?_, ?_⟩
        · intro i; rw [hev]
          exact getD_active_full m t i hta
        · intro n i; rw [hev]
          rcases n with _ | _ | _ | _ | _ | _ | n
          · exact le_refl _
          · exact getD_active_inc_ge m t i hta
          · exact getD_active_inc_ge m t i hta
          · exact getD_active_inc_ge m t i hta
          · exact le_of_eq (getD_active_full m t i hta).symm
          · exact le_of_eq (getD_active_full m t i hta).symm
          · simp only [List.take_succ_cons, List.take_nil]
            exact le_of_eq (getD_active_full m t i hta).symm
        · rw [hev]; rfl
        · intro i; rw [hev]
          have hcond : (if i = t then (1 : Int) else 0) =
              (if i = t ∧ true = true ∧ true = true then (1 : Int) else 0) := by
            simp
          exact (getD_request_full m t i htr).trans (by rw [hcond])
        · intro n i; rw [hev]
          rcases n with _ | _ | _ | _ | _ | _ | n
          · exact le_refl _
          · exact le_refl _
          · exact le_refl _
          · exact getD_request_inc_ge (increment_active m t) t i htr
          · exact getD_request_inc_ge (increment_active m t) t i htr
          · exact getD_request_inc_ge (increment_active m t) t i htr
          · simp only [List.take_succ_cons, List.take_nil]
            exact getD_request_inc_ge (increment_active m t) t i htr
      · -- full success
        have hev : handle_events (t : Int) ⟨true, true, true⟩ =
            [.incActive t, .forwardToBackend, .forwardToClient, .incRequests t,
             .decActive t, .closeBackend, .closeClient] := by
          simp [handle_events, hne]
        refine ⟨?_, ?_, ?_, ?_, ?_⟩
        · intro i; rw [hev]
          exact getD_active_full m t i hta
        · intro n i; rw [hev]
          rcases n with _ | _ | _ | _ | _ | _ | _ | n
          · exact le_refl _
          · exact getD_active_inc_ge m t i hta
          · exact getD_active_inc_ge m t i hta
          · exact getD_active_inc_ge m t i hta
          · exact getD_active_inc_ge m t i hta
          · exact le_of_eq (getD_active_full m t i hta).symm
          · exact le_of_eq (getD_active_full m t i hta).symm
          · simp only [List.take_succ_cons, List.take_nil]
            exact le_of_eq (getD_active_full m t i hta).symm
        · rw [hev]; rfl
        · intro i; rw [hev]
          have hcond : (if i = t then (1 : Int) else 0) =
              (if i = t ∧ true = true ∧ true = true then (1 : Int) else 0) := by
            simp
          exact (getD_request_full m t i htr).trans (by rw [hcond])
        · intro n i; rw [hev]
          rcases n with _ | _ | _ | _ | _ | _ | _ | n
          · exact le_refl _
          · exact le_refl _
          · exact le_refl _
          · exact le_refl _
          · exact getD_request_inc_ge (increment_active m t) t i htr
          · exact getD_request_inc_ge (increment_active m t) t i htr
          · exact getD_request_inc_ge (increment_active m t) t i htr
          · simp only [List.take_succ_cons, List.take_nil]
            exact getD_request_inc_ge (increment_active m t) t i htr

/-! ## Claim theorems -/

/-- C6: `get_least_connection_backend` returns `-1` on an empty candidate
sequence; on a non-empty one (with counts below the `INT_MAX` sentinel) it
returns a candidate whose active-connection count is ≤ every candidate's
count, and every candidate appearing earlier in the sequence has a strictly
larger count (ties break to the earliest). -/
theorem C6_least_loaded_among (m : BackendManager) (healthy : List Nat)
    (hlt : ∀ j ∈ healthy, m.active_connections.getD j 0 < INT_MAX) :
    (healthy = [] → get_least_connection_backend m healthy = -1) ∧
    (healthy ≠ [] →
      ∃ (l₁ : List Nat) (j₀ : Nat) (l₂ : List Nat), healthy = l₁ ++ j₀ :: l₂ ∧
        get_least_connection_backend m healthy = (j₀ : Int) ∧
        (∀ x ∈ healthy,
          m.active_connections.getD j₀ 0 ≤ m.active_connections.getD x 0) ∧
        (∀ x ∈ l₁,
          m.active_connections.getD j₀ 0 < m.active_connections.getD x 0)) := by
  constructor
  · intro h; subst h; rfl
  · intro hne
    rcases lc_foldl_char (fun idx => m.active_connections.getD idx 0) healthy INT_MAX (-1) with
      ⟨_, hall⟩ | ⟨l₁, j₀, l₂, hsplit, heq, _, h₁, h₂⟩
    · obtain ⟨j, hj⟩ := List.exists_mem_of_ne_nil healthy hne
      exact absurd (hall j hj) (not_le.mpr (hlt j hj))
    · refine ⟨l₁, j₀, l₂, hsplit, ?_, ?_, h₁⟩
      · unfold get_least_connection_backend; rw [heq]
      · intro x hx
        rw [hsplit] at hx
        rcases List.mem_append.mp hx with hx | hx
        · exact le_of_lt (h₁ x hx)
        · rcases List.mem_cons.mp hx with rfl | hx
          · exact le_refl _
          · exact h₂ x hx

theorem C6_least_loaded_among_witness :
    (∀ j ∈ ([0, 1, 2] : List Nat),
        BackendManager.init.active_connections.getD j 0 < INT_MAX) ∧
    ((([0, 1, 2] : List Nat) = [] →
        get_least_connection_backend BackendManager.init [0, 1, 2] = -1) ∧
     (([0, 1, 2] : List Nat) ≠ [] →
      ∃ (l₁ : List Nat) (j₀ : Nat) (l₂ : List Nat), ([0, 1, 2] : List Nat) = l₁ ++ j₀ :: l₂ ∧
        get_least_connection_backend BackendManager.init [0, 1, 2] = (j₀ : Int) ∧
        (∀ x ∈ ([0, 1, 2] : List Nat),
          BackendManager.init.active_connections.getD j₀ 0 ≤
            BackendManager.init.active_connections.getD x 0) ∧
        (∀ x ∈ l₁,
          BackendManager.init.active_connections.getD j₀ 0 <
            BackendManager.init.active_connections.getD x 0))) :=
  ⟨by decide, C6_least_loaded_among BackendManager.init [0, 1, 2] (by decide)⟩

/-- C10: in every algorithm mode, `select_backend` returns `-1` or a member
of the healthy snapshot read during the call, which is a valid index into the
backend list; hence the `backend_servers[backend_index]` lookup in
`ClientHandler::handle` is in bounds. -/
theorem C10_select_result_bounds (hasher : String → Nat) (m : BackendManager)
    (lb : LoadBalancer) (ip : String) (hwf : WF m) :
    (select_backend hasher m lb ip).1 = -1 ∨
      ∃ t : Nat, (select_backend hasher m lb ip).1 = (t : Int) ∧
        t ∈ get_healthy_indices m ∧ t < m.backend_servers.length := by
  rcases select_backend_fst_mem hasher m lb ip with h | ⟨t, ht, hmem⟩
  · exact Or.inl h
  · refine Or.inr ⟨t, ht, hmem, ?_⟩
    have h1 := (mem_get_healthy_indices.mp hmem).1
    rw [hwf.health_len] at h1
    exact h1

theorem C10_select_result_bounds_witness :
    (select_backend (fun _ => 0) BackendManager.init
        ⟨LBAlgorithm.ROUND_ROBIN, 0⟩ "127.0.0.1").1 = -1 ∨
      ∃ t : Nat, (select_backend (fun _ => 0) BackendManager.init
          ⟨LBAlgorithm.ROUND_ROBIN, 0⟩ "127.0.0.1").1 = (t : Int) ∧
        t ∈ get_healthy_indices BackendManager.init ∧
        t < BackendManager.init.backend_servers.length :=
  C10_select_result_bounds (fun _ => 0) BackendManager.init
    ⟨LBAlgorithm.ROUND_ROBIN, 0⟩ "127.0.0.1" WF.init

/-- C9: selection mutates no backend state — health flags, active-connection
counts, request counts and the server list are all unchanged when
`select_backend` returns; only the selector-owned round-robin cursor may
change. -/
theorem C9_select_frame (hasher : String → Nat) (s : BackendManager × LoadBalancer)
    (ip : String) :
    (sys_select hasher s ip).2.1.backend_health = s.1.backend_health ∧
    (sys_select hasher s ip).2.1.active_connections = s.1.active_connections ∧
    (sys_select hasher s ip).2.1.request_count = s.1.request_count ∧
    (sys_select hasher s ip).2.1.backend_servers = s.1.backend_servers :=
  ⟨rfl, rfl, rfl, rfl⟩

/-- C8: in IPHash mode the selected index is a pure function of the client
address and the healthy snapshot — two calls with the same address, the same
hash function and equal healthy snapshots return the same index, whatever the
rest of the balancer state (e.g. the cursor) is. -/
theorem C8_iphash_pure (hasher : String → Nat) (m₁ m₂ : BackendManager)
    (lb₁ lb₂ : LoadBalancer) (ip : String)
    (h₁ : lb₁.algorithm = LBAlgorithm.IP_HASH)
    (h₂ : lb₂.algorithm = LBAlgorithm.IP_HASH)
    (hsnap : get_healthy_indices m₁ = get_healthy_indices m₂) :
    (select_backend hasher m₁ lb₁ ip).1 = (select_backend hasher m₂ lb₂ ip).1 := by
  simp only [select_backend, h₁, h₂, hsnap]
  by_cases hemp : (get_healthy_indices m₂).isEmpty <;> simp [hemp]

theorem C8_iphash_pure_witness :
    (⟨LBAlgorithm.IP_HASH, 0⟩ : LoadBalancer).algorithm = LBAlgorithm.IP_HASH ∧
    (⟨LBAlgorithm.IP_HASH, 5⟩ : LoadBalancer).algorithm = LBAlgorithm.IP_HASH ∧
    get_healthy_indices BackendManager.init = get_healthy_indices BackendManager.init ∧
    (select_backend (fun s => s.length) BackendManager.init
        ⟨LBAlgorithm.IP_HASH, 0⟩ "10.0.0.7").1 =
      (select_backend (fun s => s.length) BackendManager.init
        ⟨LBAlgorithm.IP_HASH, 5⟩ "10.0.0.7").1 :=
  ⟨rfl, rfl, rfl,
   C8_iphash_pure (fun s => s.length) BackendManager.init BackendManager.init
     ⟨LBAlgorithm.IP_HASH, 0⟩ ⟨LBAlgorithm.IP_HASH, 5⟩ "10.0.0.7" rfl rfl rfl⟩

/-- C2: in RoundRobin mode, over a fixed non-empty healthy snapshot of size
`K`, the `i`-th of `N` successive selections returns
`healthy[(c0 + i) mod K]` where `c0` is the starting cursor; each call
advances the cursor by exactly one, and no chosen index repeats within any
window of `K` consecutive selections. (The `rr_index + N < 2^64` bound keeps
the `size_t` cursor below its wrap-around.) -/
theorem C2_round_robin_cyclic (hasher : String → Nat) (m : BackendManager)
    (lb : LoadBalancer) (ip : String) (N : Nat)
    (halg : lb.algorithm = LBAlgorithm.ROUND_ROBIN)
    (hne : get_healthy_indices m ≠ [])
    (hbound : lb.rr_index + N < UINT64_MOD) :
    (∀ i < N, (select_n hasher m ip N lb).1.getD i (-1) =
      ((get_healthy_indices m).getD
        ((lb.rr_index + i) % (get_healthy_indices m).length) 0 : Int)) ∧
    (select_n hasher m ip N lb).2.rr_index = lb.rr_index + N ∧
    (∀ i j, i < j → j < N → j < i + (get_healthy_indices m).length →
      (select_n hasher m ip N lb).1.getD i (-1) ≠
        (select_n hasher m ip N lb).1.getD j (-1)) := by
  obtain ⟨hfin, hres⟩ := select_n_rr hasher m ip hne N lb halg hbound
  refine ⟨hres, by rw [hfin], ?_⟩
  intro i j hij hjN hwin
  rw [hres i (lt_trans hij hjN), hres j hjN]
  have hK0 : 0 < (get_healthy_indices m).length := List.length_pos.mpr hne
  have hidx : (lb.rr_index + i) % (get_healthy_indices m).length ≠
      (lb.rr_index + j) % (get_healthy_indices m).length := by
    intro hEq
    have hmodeq : Nat.ModEq (get_healthy_indices m).length
        (lb.rr_index + i) (lb.rr_index + j) := hEq
    have hdvd := (Nat.modEq_iff_dvd' (by omega)).mp hmodeq
    have hdvd' : (get_healthy_indices m).length ∣ j - i := by
      simpa [Nat.add_sub_add_left] using hdvd
    have hle := Nat.le_of_dvd (by omega) hdvd'
    omega
  have hneq := nodup_getD_ne (get_healthy_indices_nodup m)
      (Nat.mod_lt _ hK0) (Nat.mod_lt _ hK0) hidx
  intro hEq
  exact hneq (by exact_mod_cast hEq)

theorem C2_round_robin_cyclic_witness :
    (⟨LBAlgorithm.ROUND_ROBIN, 0⟩ : LoadBalancer).algorithm =
        LBAlgorithm.ROUND_ROBIN ∧
    get_healthy_indices BackendManager.init ≠ [] ∧
    (⟨LBAlgorithm.ROUND_ROBIN, 0⟩ : LoadBalancer).rr_index + 4 < UINT64_MOD ∧
    ((∀ i < 4, (select_n (fun _ => 0) BackendManager.init "1.1.1.1" 4
        ⟨LBAlgorithm.ROUND_ROBIN, 0⟩).1.getD i (-1) =
      ((get_healthy_indices BackendManager.init).getD
        (((⟨LBAlgorithm.ROUND_ROBIN, 0⟩ : LoadBalancer).rr_index + i) %
          (get_healthy_indices BackendManager.init).length) 0 : Int)) ∧
    (select_n (fun _ => 0) BackendManager.init "1.1.1.1" 4
        ⟨LBAlgorithm.ROUND_ROBIN, 0⟩).2.rr_index =
      (⟨LBAlgorithm.ROUND_ROBIN, 0⟩ : LoadBalancer).rr_index + 4 ∧
    (∀ i j, i < j → j < 4 →
        j < i + (get_healthy_indices BackendManager.init).length →
      (select_n (fun _ => 0) BackendManager.init "1.1.1.1" 4
          ⟨LBAlgorithm.ROUND_ROBIN, 0⟩).1.getD i (-1) ≠
        (select_n (fun _ => 0) BackendManager.init "1.1.1.1" 4
          ⟨LBAlgorithm.ROUND_ROBIN, 0⟩).1.getD j (-1))) :=
  ⟨rfl, by decide, by decide,
   C2_round_robin_cyclic (fun _ => 0) BackendManager.init
     ⟨LBAlgorithm.ROUND_ROBIN, 0⟩ "1.1.1.1" 4 rfl (by decide) (by decide)⟩

theorem getD_set_self_bool {l : List Bool} {i : Nat} (a : Bool) (h : i < l.length) :
    (l.set i a).getD i false = a := by
  rw [List.getD_eq_getElem _ _ (by simpa using h)]
  simp [List.getElem_set_self]

theorem getD_set_ne_bool {l : List Bool} {i j : Nat} (a : Bool) (h : i ≠ j) :
    (l.set i a).getD j false = l.getD j false := by
  simp [List.getD_eq_getD_get?, List.get?_eq_getElem?, List.getElem?_set_ne h]

/-- Folding `set_health` over a list of indices: each in-range index ends up
with its own probe result, untouched indices keep their previous flag. -/
theorem health_cycle_foldl (f : Nat → Bool) (l : List Nat) :
    ∀ (m : BackendManager) (i : Nat), i < m.backend_health.length →
      (l.foldl (fun acc j => set_health acc j (f j)) m).backend_health.getD i false =
        if i ∈ l then f i else m.backend_health.getD i false := by
  induction l with
  | nil => intro m i _; simp
  | cons j t ih =>
    intro m i hi
    rw [List.foldl_cons]
    have hlen : i < (set_health m j (f j)).backend_health.length := by
      simpa [set_health] using hi
    rw [ih (set_health m j (f j)) i hlen]
    by_cases hij : i = j
    · subst hij
      by_cases hmem : i ∈ t
      · simp [hmem]
      · simp only [hmem, if_false, List.mem_cons, true_or, if_true]
        exact getD_set_self_bool _ hi
    · by_cases hmem : i ∈ t
      · simp [hmem, hij]
      · have : ¬ i ∈ j :: t := by
          simp [hij, hmem]
        simp only [hmem, if_false, this, if_false]
        exact getD_set_ne_bool _ fun e => hij e.symm

/-- C4: after a probe cycle, each backend's health flag is true iff that
backend's own probe created its socket, connected, sent the full `GET
/health` request, and the single bounded read returned bytes containing
`HTTP/1.1 200` or `HTTP/1.0 200`; and the flag depends only on that
backend's own probe outcome (one backend's probe never affects another's
flag). -/
theorem C4_health_probe (m : BackendManager) (outcome : Nat → ProbeOutcome)
    (hwf : WF m) :
    (∀ i < m.backend_servers.length,
      ((health_cycle m outcome).backend_health.getD i false = true ↔
        (outcome i).socketOk = true ∧ (outcome i).connectOk = true ∧
        (outcome i).sendOk = true ∧
        ∃ resp, (outcome i).recvData = some resp ∧
          (strContains resp "HTTP/1.1 200" = true ∨
           strContains resp "HTTP/1.0 200" = true))) ∧
    (∀ outcome' : Nat → ProbeOutcome, ∀ i < m.backend_servers.length,
      outcome i = outcome' i →
      (health_cycle m outcome).backend_health.getD i false =
        (health_cycle m outcome').backend_health.getD i false) := by
  have key : ∀ (oc : Nat → ProbeOutcome), ∀ i < m.backend_servers.length,
      (health_cycle m oc).backend_health.getD i false = probe_alive (oc i) := by
    intro oc i hi
    unfold health_cycle
    rw [health_cycle_foldl (fun j => probe_alive (oc j))
      (List.range m.backend_servers.length) m i (by rw [hwf.health_len]; exact hi)]
    rw [if_pos (List.mem_range.mpr hi)]
  refine ⟨?_, ?_⟩
  · intro i hi
    rw [key outcome i hi]
    rcases outcome i with ⟨so, co, se, rd⟩
    cases rd <;>
      simp [probe_alive, Bool.and_eq_true, and_assoc]
  · intro outcome' i hi heq
    rw [key outcome i hi, key outcome' i hi, heq]

theorem C4_health_probe_witness :
    ((health_cycle BackendManager.init
        (fun _ => ⟨true, true, true, some "HTTP/1.1 200 OK\r\n"⟩)).backend_health.getD
      0 false = true) :=
  ((C4_health_probe BackendManager.init
      (fun _ => ⟨true, true, true, some "HTTP/1.1 200 OK\r\n"⟩) WF.init).1
    0 (by decide)).mpr
    ⟨rfl, rfl, rfl, "HTTP/1.1 200 OK\r\n", rfl, Or.inl (by decide)⟩

/-- C3 (counterexample): on the backend-connect-failure path the client is
sent `HTTP/1.1 503 Backend Connection Failed`, which differs from the
`HTTP/1.1 503 Service Unavailable` response the claim requires on that
path. -/
theorem C3_counterexample :
    handle_events 0 ⟨false, false, false⟩ =
      [Event.sendClient msg_503_backend_failed, Event.closeClient] ∧
    msg_503_backend_failed ≠ msg_503_unavailable := by
  constructor
  · rfl
  · decide

/-- C3 (amended): when selection returns "none" the client is sent exactly
`HTTP/1.1 503 Service Unavailable` with `Content-Length: 0` and
`Connection: close` and the connection is closed with nothing forwarded;
when the connect to the chosen backend fails the client is likewise sent a
synthetic 503 with `Content-Length: 0` and `Connection: close` and the
connection is closed with nothing forwarded, but its status line reads
`HTTP/1.1 503 Backend Connection Failed`. -/
theorem C3_synthetic_503 (hasher : String → Nat) (m : BackendManager)
    (lb : LoadBalancer) (ip : String) (env : NetEnv) :
    ((handle hasher m lb ip env).1 = -1 →
      (handle hasher m lb ip env).2.1 =
        [Event.sendClient msg_503_unavailable, Event.closeClient]) ∧
    ((handle hasher m lb ip env).1 ≠ -1 → env.connectOk = false →
      (handle hasher m lb ip env).2.1 =
        [Event.sendClient msg_503_backend_failed, Event.closeClient]) ∧
    strContains msg_503_unavailable "HTTP/1.1 503 Service Unavailable" = true ∧
    strContains msg_503_backend_failed "HTTP/1.1 503 Backend Connection Failed" = true ∧
    strContains msg_503_unavailable "Content-Length: 0" = true ∧
    strContains msg_503_unavailable "Connection: close" = true ∧
    strContains msg_503_backend_failed "Content-Length: 0" = true ∧
    strContains msg_503_backend_failed "Connection: close" = true := by
  refine ⟨?_, ?_, by decide, by decide, by decide, by decide, by decide, by decide⟩
  · intro h
    show handle_events (select_backend hasher m lb ip).1 env = _
    rw [show (select_backend hasher m lb ip).1 = -1 from h]
    rfl
  · intro h hco
    show handle_events (select_backend hasher m lb ip).1 env = _
    have h' : ¬((select_backend hasher m lb ip).1 = -1) := h
    simp [handle_events, h', hco]

/-- The registry with every backend marked unhealthy (three probe failures). -/
def allUnhealthy : BackendManager :=
  set_health (set_health (set_health BackendManager.init 0 false) 1 false) 2 false

theorem C3_synthetic_503_witness :
    ((handle (fun _ => 0) allUnhealthy ⟨LBAlgorithm.ROUND_ROBIN, 0⟩ "1.2.3.4"
        ⟨true, true, true⟩).2.1 =
      [Event.sendClient msg_503_unavailable, Event.closeClient]) ∧
    ((handle (fun _ => 0) BackendManager.init ⟨LBAlgorithm.ROUND_ROBIN, 0⟩ "1.2.3.4"
        ⟨false, true, true⟩).2.1 =
      [Event.sendClient msg_503_backend_failed, Event.closeClient]) :=
  ⟨(C3_synthetic_503 (fun _ => 0) allUnhealthy ⟨LBAlgorithm.ROUND_ROBIN, 0⟩
      "1.2.3.4" ⟨true, true, true⟩).1 (by decide),
   (C3_synthetic_503 (fun _ => 0) BackendManager.init ⟨LBAlgorithm.ROUND_ROBIN, 0⟩
      "1.2.3.4" ⟨false, true, true⟩).2.1 (by decide) rfl⟩

/-- C1: for every run of `handle` (any selection outcome, any network
outcomes), every backend's active-connection count returns to its
pre-request value when the handler finishes, stays non-negative at every
intermediate point (given non-negative initial counts), and the
active-counter events of the trace are exactly one `incActive` on the chosen
backend — occurring only when the connect succeeded — followed by exactly one
`decActive` on that same backend. -/
theorem C1_active_invariant (hasher : String → Nat) (m : BackendManager)
    (lb : LoadBalancer) (ip : String) (env : NetEnv) (hwf : WF m)
    (hnn : ∀ i, 0 ≤ m.active_connections.getD i 0) :
    (∀ i, (applyEvents m (handle hasher m lb ip env).2.1).active_connections.getD i 0 =
        m.active_connections.getD i 0) ∧
    (∀ n i, 0 ≤ (applyEvents m
        ((handle hasher m lb ip env).2.1.take n)).active_connections.getD i 0) ∧
    ((handle hasher m lb ip env).2.1.filter isActiveEvent =
      if env.connectOk = true ∧ (handle hasher m lb ip env).1 ≠ -1 then
        [Event.incActive (handle hasher m lb ip env).1.toNat,
         Event.decActive (handle hasher m lb ip env).1.toNat]
      else []) := by
  rcases select_backend_fst_mem hasher m lb ip with hsel | ⟨t, hsel, hmem⟩
  · have hev : (handle hasher m lb ip env).2.1 = handle_events (-1) env := by
      show handle_events (select_backend hasher m lb ip).1 env = _
      rw [hsel]
    obtain ⟨h1, h2, h3⟩ := handle_events_spec_none m env
    refine ⟨?_, ?_, ?_⟩
    · intro i; rw [hev, h1]
    · intro n i; rw [hev, h2 n]; exact hnn i
    · rw [hev, h3]
      have hneg : ¬(env.connectOk = true ∧ (handle hasher m lb ip env).1 ≠ -1) := by
        rintro ⟨_, hc⟩
        exact hc hsel
      rw [if_neg hneg]
  · have hlt := (mem_get_healthy_indices.mp hmem).1
    rw [hwf.health_len] at hlt
    have hta : t < m.active_connections.length := by rw [hwf.active_len]; exact hlt
    have htr : t < m.request_count.length := by rw [hwf.request_len]; exact hlt
    have hev : (handle hasher m lb ip env).2.1 = handle_events (t : Int) env := by
      show handle_events (select_backend hasher m lb ip).1 env = _
      rw [hsel]
    obtain ⟨h1, h2, h3, _, _⟩ := handle_events_spec_some m t env hta htr
    refine ⟨?_, ?_, ?_⟩
    · intro i; rw [hev]; exact h1 i
    · intro n i; rw [hev]; exact le_trans (hnn i) (h2 n i)
    · rw [hev, h3]
      have hfst : (handle hasher m lb ip env).1 = (t : Int) := hsel
      rw [hfst]
      by_cases hco : env.connectOk = true
      · rw [if_pos hco, if_pos ⟨hco, by omega⟩]
        rfl
      · rw [if_neg hco, if_neg (by tauto)]

theorem C1_active_invariant_witness :
    (∀ i, 0 ≤ BackendManager.init.active_connections.getD i 0) ∧
    ((∀ i, (applyEvents BackendManager.init
        (handle (fun _ => 0) BackendManager.init ⟨LBAlgorithm.ROUND_ROBIN, 0⟩
          "1.2.3.4" ⟨true, true, true⟩).2.1).active_connections.getD i 0 =
        BackendManager.init.active_connections.getD i 0) ∧
    (∀ n i, 0 ≤ (applyEvents BackendManager.init
        ((handle (fun _ => 0) BackendManager.init ⟨LBAlgorithm.ROUND_ROBIN, 0⟩
          "1.2.3.4" ⟨true, true, true⟩).2.1.take n)).active_connections.getD i 0) ∧
    ((handle (fun _ => 0) BackendManager.init ⟨LBAlgorithm.ROUND_ROBIN, 0⟩
          "1.2.3.4" ⟨true, true, true⟩).2.1.filter isActiveEvent =
      if (⟨true, true, true⟩ : NetEnv).connectOk = true ∧
          (handle (fun _ => 0) BackendManager.init ⟨LBAlgorithm.ROUND_ROBIN, 0⟩
            "1.2.3.4" ⟨true, true, true⟩).1 ≠ -1 then
        [Event.incActive (handle (fun _ => 0) BackendManager.init
            ⟨LBAlgorithm.ROUND_ROBIN, 0⟩ "1.2.3.4" ⟨true, true, true⟩).1.toNat,
         Event.decActive (handle (fun _ => 0) BackendManager.init
            ⟨LBAlgorithm.ROUND_ROBIN, 0⟩ "1.2.3.4" ⟨true, true, true⟩).1.toNat]
      else [])) := by
  have hnn : ∀ i, 0 ≤ BackendManager.init.active_connections.getD i 0 := by
    intro i
    rcases i with _ | _ | _ | i
    · decide
    · decide
    · decide
    · rw [List.getD_eq_default]
      simp [BackendManager.init]
  exact ⟨hnn, C1_active_invariant (fun _ => 0) BackendManager.init
    ⟨LBAlgorithm.ROUND_ROBIN, 0⟩ "1.2.3.4" ⟨true, true, true⟩ WF.init hnn⟩

/-- C5: for every run of `handle`, the chosen backend's request count gains
exactly one iff the backend connect and the request leg both succeeded
(independently of the response leg, which does not appear in the condition),
all other request counts are unchanged, and request counts never decrease at
any intermediate point. -/
theorem C5_request_accounting (hasher : String → Nat) (m : BackendManager)
    (lb : LoadBalancer) (ip : String) (env : NetEnv) (hwf : WF m) :
    (∀ i, (applyEvents m (handle hasher m lb ip env).2.1).request_count.getD i 0 =
        m.request_count.getD i 0 +
          (if (handle hasher m lb ip env).1 = (i : Int) ∧ env.connectOk = true ∧
              env.reqLegOk = true then 1 else 0)) ∧
    (∀ n i, m.request_count.getD i 0 ≤
        (applyEvents m ((handle hasher m lb ip env).2.1.take n)).request_count.getD i 0) := by
  rcases select_backend_fst_mem hasher m lb ip with hsel | ⟨t, hsel, hmem⟩
  · have hev : (handle hasher m lb ip env).2.1 = handle_events (-1) env := by
      show handle_events (select_backend hasher m lb ip).1 env = _
      rw [hsel]
    obtain ⟨h1, h2, _⟩ := handle_events_spec_none m env
    refine ⟨?_, ?_⟩
    · intro i
      have hneg : ¬((handle hasher m lb ip env).1 = (i : Int) ∧
          env.connectOk = true ∧ env.reqLegOk = true) := by
        rintro ⟨hc, _⟩
        have hc' : (-1 : Int) = (i : Int) := hsel ▸ hc
        omega
      rw [hev, h1, if_neg hneg, add_zero]
    · intro n i; rw [hev, h2 n]
  · have hlt := (mem_get_healthy_indices.mp hmem).1
    rw [hwf.health_len] at hlt
    have hta : t < m.active_connections.length := by rw [hwf.active_len]; exact hlt
    have htr : t < m.request_count.length := by rw [hwf.request_len]; exact hlt
    have hev : (handle hasher m lb ip env).2.1 = handle_events (t : Int) env := by
      show handle_events (select_backend hasher m lb ip).1 env = _
      rw [hsel]
    obtain ⟨_, _, _, h4, h5⟩ := handle_events_spec_some m t env hta htr
    refine ⟨?_, ?_⟩
    · intro i
      have hfst : (handle hasher m lb ip env).1 = (t : Int) := hsel
      rw [hev, h4 i, hfst]
      congr 1
      apply if_congr _ rfl rfl
      constructor
      · rintro ⟨h, hP⟩
        exact ⟨by omega, hP⟩
      · rintro ⟨h, hP⟩
        exact ⟨by omega, hP⟩
    · intro n i; rw [hev]; exact h5 n i

theorem C5_request_accounting_witness :
    (∀ i, (applyEvents BackendManager.init
        (handle (fun _ => 0) BackendManager.init ⟨LBAlgorithm.ROUND_ROBIN, 0⟩
          "1.2.3.4" ⟨true, true, false⟩).2.1).request_count.getD i 0 =
        BackendManager.init.request_count.getD i 0 +
          (if (handle (fun _ => 0) BackendManager.init ⟨LBAlgorithm.ROUND_ROBIN, 0⟩
                "1.2.3.4" ⟨true, true, false⟩).1 = (i : Int) ∧
              (⟨true, true, false⟩ : NetEnv).connectOk = true ∧
              (⟨true, true, false⟩ : NetEnv).reqLegOk = true then 1 else 0)) ∧
    (∀ n i, BackendManager.init.request_count.getD i 0 ≤
        (applyEvents BackendManager.init
          ((handle (fun _ => 0) BackendManager.init ⟨LBAlgorithm.ROUND_ROBIN, 0⟩
            "1.2.3.4" ⟨true, true, false⟩).2.1.take n)).request_count.getD i 0) :=
  C5_request_accounting (fun _ => 0) BackendManager.init
    ⟨LBAlgorithm.ROUND_ROBIN, 0⟩ "1.2.3.4" ⟨true, true, false⟩ WF.init

/-- C7 (counterexample): a selection request in IP_HASH mode against the
initial (all-healthy) registry returns backend 0 yet leaves the round-robin
cursor at its old value, so the cursor is not advanced by one on every
selection request in every algorithm mode. -/
theorem C7_counterexample :
    (select_backend (fun _ => 0) BackendManager.init
        ⟨LBAlgorithm.IP_HASH, 0⟩ "9.9.9.9").1 = 0 ∧
    (select_backend (fun _ => 0) BackendManager.init
        ⟨LBAlgorithm.IP_HASH, 0⟩ "9.9.9.9").2.rr_index = 0 := by
  constructor <;> rfl

/-- C7 (amended): the round-robin cursor is advanced by exactly one (modulo
`2^64`, since it is a `size_t`) precisely by those selection requests made in
RoundRobin mode that observe a non-empty healthy snapshot; selection requests
in the other algorithm modes, and requests that return "none", leave the
cursor unchanged. -/
theorem C7_cursor_advance (hasher : String → Nat) (m : BackendManager)
    (lb : LoadBalancer) (ip : String) :
    (select_backend hasher m lb ip).2.rr_index =
      if lb.algorithm = LBAlgorithm.ROUND_ROBIN ∧ get_healthy_indices m ≠ [] then
        (lb.rr_index + 1) % UINT64_MOD
      else lb.rr_index := by
  by_cases hemp : (get_healthy_indices m).isEmpty
  · have : get_healthy_indices m = [] := by simpa [List.isEmpty_iff] using hemp
    simp [select_backend, hemp, this]
  · have hne : get_healthy_indices m ≠ [] := by
      simpa [List.isEmpty_iff] using hemp
    match halg : lb.algorithm with
    | .ROUND_ROBIN => simp [select_backend, hemp, halg, hne]
    | .LEAST_CONNECTIONS => simp [select_backend, hemp, halg, hne]
    | .IP_HASH => simp [select_backend, hemp, halg, hne]

end LB
